import Mathlib

/-!
# Verification of the snowflake container launcher

Shallow embedding of the Rust sources of the `snowflake` container
launcher (crates `snowflake` and `snowflake-os`), together with proofs
about the spawn pipeline, the run supervisor, the run-action driver,
and the supporting data structures.

Conventions:
* machine bytes are `Nat` values `< 256`;
* C `i32` values are `Int` values in `[-2^31, 2^31)`;
* the native endianness of the only supported target (x86-64 Linux) is
  little-endian, so `to_ne_bytes`/`from_ne_bytes` are modelled as
  little-endian;
* fallible syscalls are modelled by `Except Int α` where the `Int` is
  the captured OS error code (`errno`); the outcome of each syscall a
  function performs is supplied by an explicit environment record,
  since the kernel's behaviour is not part of the program;
* side effects are modelled by explicit event traces.
-/

namespace Snowflake

/-! ## Native-endian i32 codec

Models `i32::to_ne_bytes` (used by the child in `Command::spawn` to
encode the errno prefix of the error packet) and `i32::from_ne_bytes`
(used by the parent to decode it). -/

/-- Model of `i32::from_ne_bytes([b0,b1,b2,b3])` on a little-endian
target: assemble the unsigned value and reinterpret in two's
complement. -/
def neI32 (b0 b1 b2 b3 : Nat) : Int :=
  let u := b0 + 256 * b1 + 65536 * b2 + 16777216 * b3
  if u < 2147483648 then (u : Int) else (u : Int) - 4294967296

/-- Model of `i32::to_ne_bytes` on a little-endian target. -/
def i32ToNeBytes (n : Int) : List Nat :=
  let u := (n % 4294967296).toNat
  [u % 256, u / 256 % 256, u / 65536 % 256, u / 16777216 % 256]

/-! ## UTF-8

`Command::spawn` decodes the context part of the child's error packet
with `String::from_utf8_lossy`.  We model byte strings as lists of
`Nat` and Unicode text as lists of code points, and implement the
decoding algorithm of Rust's `core::str` validation: every maximal
invalid subpart is replaced by one U+FFFD (`65533`), where the length
of the invalid subpart follows `run_utf8_validation` (`error_len`),
and a truncated final sequence yields a single U+FFFD. -/

/-- A Unicode scalar value: any code point except the surrogates. -/
def ValidScalar (c : Nat) : Prop :=
  c < 55296 ∨ (57344 ≤ c ∧ c < 1114112)

instance (c : Nat) : Decidable (ValidScalar c) := by
  unfold ValidScalar; infer_instance

/-- UTF-8 encoding of one scalar value (Rust strings are stored UTF-8
encoded, so this is what `error.context.as_bytes()` yields per
character). -/
def utf8EncodeChar (c : Nat) : List Nat :=
  if c < 128 then [c]
  else if c < 2048 then [192 + c / 64, 128 + c % 64]
  else if c < 65536 then
    [224 + c / 4096, 128 + c / 64 % 64, 128 + c % 64]
  else
    [240 + c / 262144, 128 + c / 4096 % 64, 128 + c / 64 % 64, 128 + c % 64]

/-- UTF-8 encoding of a sequence of scalar values. -/
def utf8Encode (cs : List Nat) : List Nat :=
  cs.foldr (fun c acc => utf8EncodeChar c ++ acc) []

/-- Model of `String::from_utf8_lossy` at the level of code points:
decode a byte sequence, replacing each maximal invalid subpart with
U+FFFD, with the same subpart lengths as Rust's UTF-8 validation. -/
def utf8LossyDecode : List Nat → List Nat
  | [] => []
  | b0 :: rest =>
    if b0 < 128 then b0 :: utf8LossyDecode rest
    else if 194 ≤ b0 ∧ b0 ≤ 223 then
      match rest with
      | [] => [65533]
      | b1 :: rest1 =>
        if 128 ≤ b1 ∧ b1 < 192 then
          ((b0 - 192) * 64 + (b1 - 128)) :: utf8LossyDecode rest1
        else 65533 :: utf8LossyDecode (b1 :: rest1)
    else if 224 ≤ b0 ∧ b0 ≤ 239 then
      match rest with
      | [] => [65533]
      | b1 :: rest1 =>
        if (b0 = 224 ∧ 160 ≤ b1 ∧ b1 < 192) ∨
           (225 ≤ b0 ∧ b0 ≤ 236 ∧ 128 ≤ b1 ∧ b1 < 192) ∨
           (b0 = 237 ∧ 128 ≤ b1 ∧ b1 < 160) ∨
           (238 ≤ b0 ∧ 128 ≤ b1 ∧ b1 < 192) then
          match rest1 with
          | [] => [65533]
          | b2 :: rest2 =>
            if 128 ≤ b2 ∧ b2 < 192 then
              ((b0 - 224) * 4096 + (b1 - 128) * 64 + (b2 - 128)) ::
                utf8LossyDecode rest2
            else 65533 :: utf8LossyDecode (b2 :: rest2)
        else 65533 :: utf8LossyDecode (b1 :: rest1)
    else if 240 ≤ b0 ∧ b0 ≤ 244 then
      match rest with
      | [] => [65533]
      | b1 :: rest1 =>
        if (b0 = 240 ∧ 144 ≤ b1 ∧ b1 < 192) ∨
           (241 ≤ b0 ∧ b0 ≤ 243 ∧ 128 ≤ b1 ∧ b1 < 192) ∨
           (b0 = 244 ∧ 128 ≤ b1 ∧ b1 < 144) then
          match rest1 with
          | [] => [65533]
          | b2 :: rest2 =>
            if 128 ≤ b2 ∧ b2 < 192 then
              match rest2 with
              | [] => [65533]
              | b3 :: rest3 =>
                if 128 ≤ b3 ∧ b3 < 192 then
                  ((b0 - 240) * 262144 + (b1 - 128) * 4096 +
                    (b2 - 128) * 64 + (b3 - 128)) :: utf8LossyDecode rest3
                else 65533 :: utf8LossyDecode (b3 :: rest3)
            else 65533 :: utf8LossyDecode (b2 :: rest2)
        else 65533 :: utf8LossyDecode (b1 :: rest1)
    else 65533 :: utf8LossyDecode rest

/-- Code points of a string. -/
def strToCodes (s : String) : List Nat := s.data.map Char.toNat

/-- String from code points (out-of-range points map to `(default : Char)`,
which never happens for decoder output of valid input). -/
def codesToStr (cs : List Nat) : String := String.mk (cs.map Char.ofNat)

/-- UTF-8 bytes of a string, as `str::as_bytes` yields them. -/
def utf8EncodeStr (s : String) : List Nat := utf8Encode (strToCodes s)

/-- Model of `String::from_utf8_lossy(bs).into_owned()`. -/
def utf8LossyString (bs : List Nat) : String := codesToStr (utf8LossyDecode bs)

/-! ## OS constants

Values of the libc constants re-exported by `snowflake-os`
(`src/snowflake-os/src/lib.rs`), as defined by Linux on x86-64. -/

def SIGKILL : Int := 9
def POLLIN : Int := 1
def O_WRONLY : Nat := 1
def O_TRUNC : Nat := 512
def EAGAIN : Int := 11
def MS_RDONLY : Nat := 1
def MS_NOSUID : Nat := 2
def MS_NODEV : Nat := 4
def MS_NOEXEC : Nat := 8
def MS_REMOUNT : Nat := 32
def MS_BIND : Nat := 4096
def MS_REC : Nat := 16384
def MS_PRIVATE : Nat := 262144

/-- Equality of syscall outcomes is decidable (needed so witnesses can
be checked by evaluation). -/
instance exceptDecEq {ε α : Type} [DecidableEq ε] [DecidableEq α] :
    DecidableEq (Except ε α) := fun x y =>
  match x, y with
  | .ok a, .ok b =>
    if h : a = b then .isTrue (by rw [h]) else .isFalse (by simp [h])
  | .error a, .error b =>
    if h : a = b then .isTrue (by rw [h]) else .isFalse (by simp [h])
  | .ok _, .error _ => .isFalse (by simp)
  | .error _, .ok _ => .isFalse (by simp)

/-! ## Error model (`src/snowflake/src/container/error.rs`) -/

/-- Model of the `std::io::Error` values this program constructs:
either a raw OS error code (`io::Error::from_raw_os_error`,
`last_os_error`) or an error with a message (`io::Error::other`). -/
inductive IoError
  | os (code : Int)
  | other (msg : String)
deriving Repr, DecidableEq

/-- `container::Error`: an io error plus a context label
(`error.rs` lines 13-21). -/
structure Error where
  inner : IoError
  context : String
deriving Repr, DecidableEq

/-! ## Event traces

Side effects performed by the parent process, recorded as events.
Dropping a `KillGuard` (`kill_guard.rs` lines 20-27) emits one
`kill(pid, SIGKILL)` attempt followed by one `waitpid(pid, 0)`
attempt, both with failures ignored; `std::mem::forget` of the guard
emits `forgetGuard` (neutralization, no syscalls). -/

inductive SysEv
  | kill (pid : Int) (sig : Int)
  | waitpid (pid : Int)
  | forgetGuard (pid : Int)
  | poll (fd : Int) (events : Int) (timeoutMs : Int)
deriving Repr, DecidableEq

/-! ## Spawn: parent-side pipe interpretation
(`src/snowflake/src/container/spawn.rs` lines 100-135) -/

/-- Result and guard events of the tail of `Command::spawn` in the
parent. -/
structure SpawnTail where
  result : Except Error (Int × Int)
  events : List SysEv
deriving Repr, DecidableEq

/-- Parent-side interpretation of the bytes read to EOF from the
pre-exec pipe in `Command::spawn` (spawn.rs lines 104-134): a kill
guard is created for the child; on EOF with no data the guard is
forgotten and `(pid, pidfd)` is returned; on more than 4 bytes the
packet is decoded (`i32::from_ne_bytes` on the first 4 bytes,
`String::from_utf8_lossy` on the rest); on 1-4 bytes a generic
error is returned; on both error paths the guard drops. -/
def spawnReadPipe (pid pidfd : Int) (buf : List Nat) : SpawnTail :=
  match buf with
  | [] => ⟨.ok (pid, pidfd), [.forgetGuard pid]⟩
  | b0 :: b1 :: b2 :: b3 :: b4 :: rest =>
      ⟨.error ⟨.os (neI32 b0 b1 b2 b3), utf8LossyString (b4 :: rest)⟩,
       [.kill pid SIGKILL, .waitpid pid]⟩
  | _ => ⟨.error ⟨.other "Unknown error", "child_pre_execve"⟩,
         [.kill pid SIGKILL, .waitpid pid]⟩

/-- Child-side encoding of a pre-exec error into the pipe (spawn.rs
lines 92-96), assuming both `write` calls transfer all their bytes:
`errno.to_ne_bytes()` where `errno = raw_os_error().unwrap_or(-1)`,
followed by `error.context.as_bytes()`. -/
def childEncodePacket (rawOsError : Option Int) (context : String) : List Nat :=
  i32ToNeBytes (rawOsError.getD (-1)) ++ utf8EncodeStr context

/-! ## Run supervisor (`src/snowflake/src/container/run.rs`) -/

/-- Model of `std::process::ExitStatus` as produced by `waitpid`:
the child exited with a code, or was terminated by a signal. -/
inductive ExitStatus
  | exited (code : Nat)
  | signaled (sig : Nat)
deriving Repr, DecidableEq

/-- `ExitStatus::success()`: exited with code 0. -/
def ExitStatus.success : ExitStatus → Bool
  | .exited 0 => true
  | _ => false

/-- `std::time::Duration` (nanosecond precision). -/
structure Duration where
  nanos : Nat
deriving Repr, DecidableEq

/-- `Duration::as_millis`. -/
def Duration.asMillis (d : Duration) : Nat := d.nanos / 1000000

/-- `container::run::RunError` (run.rs lines 15-28). -/
inductive RunError
  | container (e : Error)
  | timeout (t : Duration)
  | unsuccessful (st : ExitStatus)
deriving Repr, DecidableEq

/-- Outcomes of the syscalls `Command::run` performs, supplied by the
environment: the result of `self.spawn()`, of `poll`, and of
`waitpid`. -/
structure RunEnv where
  spawnRes : Except Error (Int × Int)
  pollRes : Except Int Nat
  waitRes : Except Int ExitStatus
deriving Repr, DecidableEq

/-- The millisecond timeout passed to `poll`:
`timeout.as_millis().try_into().unwrap_or(i32::MAX)`. The conversion
`u128 → i32` fails exactly when the value exceeds `i32::MAX`. -/
def pollTimeout (t : Duration) : Int :=
  if (t.asMillis : Int) ≤ 2147483647 then (t.asMillis : Int) else 2147483647

/-- Model of `Command::run` (run.rs lines 35-69): spawn, create a kill
guard, poll the pidfd with `POLLIN` and the clamped timeout, then on
zero events return `Timeout`; otherwise reap with `waitpid`, forget
the guard, and inspect the status. Error returns drop the guard
(one `kill(SIGKILL)` + one `waitpid`). -/
def runModel (env : RunEnv) (t : Duration) : Except RunError Unit × List SysEv :=
  match env.spawnRes with
  | .error e => (.error (.container e), [])
  | .ok (pid, pidfd) =>
    match env.pollRes with
    | .error errno =>
        (.error (.container ⟨.os errno, "poll"⟩),
         [.poll pidfd POLLIN (pollTimeout t), .kill pid SIGKILL, .waitpid pid])
    | .ok 0 =>
        (.error (.timeout t),
         [.poll pidfd POLLIN (pollTimeout t), .kill pid SIGKILL, .waitpid pid])
    | .ok (_ + 1) =>
      match env.waitRes with
      | .error errno =>
          (.error (.container ⟨.os errno, "waitpid"⟩),
           [.poll pidfd POLLIN (pollTimeout t), .waitpid pid,
            .kill pid SIGKILL, .waitpid pid])
      | .ok st =>
          if st.success then
            (.ok (),
             [.poll pidfd POLLIN (pollTimeout t), .waitpid pid,
              .forgetGuard pid])
          else
            (.error (.unsuccessful st),
             [.poll pidfd POLLIN (pollTimeout t), .waitpid pid,
              .forgetGuard pid])

/-- Number of kill-guard firings in a trace (each drop of a guard
performs exactly one `kill`, and only guard drops call `kill`). -/
def guardFires (evs : List SysEv) : Nat :=
  evs.countP fun e => match e with | .kill _ _ => true | _ => false

/-- Number of kill-guard neutralizations (`mem::forget`) in a trace. -/
def guardForgets (evs : List SysEv) : Nat :=
  evs.countP fun e => match e with | .forgetGuard _ => true | _ => false

/-! ## The child pre-exec sequence
(`src/snowflake/src/container/spawn.rs` lines 141-186) -/

/-- `container::Stdio` (mod.rs lines 72-82). -/
inductive Stdio
  | inherit
  | closeFd
  | dup2 (oldfd : Int)
deriving Repr, DecidableEq

/-- `container::Mount` (mod.rs lines 60-67): arguments to `mount(2)`. -/
structure Mount where
  source : String
  target : String
  filesystemtype : String
  mountflags : Nat
  data : String
deriving Repr, DecidableEq

/-- `container::Command` (mod.rs lines 19-56). `fchdir` is a raw
directory file descriptor; `execve_argv`/`execve_envp` are modelled at
the string level (their null-terminated pointer layout is modelled
separately by `CStringArray`). -/
structure Command where
  setgroups : List Nat
  uid_map : List Nat
  gid_map : List Nat
  fchdir : Int
  mounts : List Mount
  chroot : String
  chroot_chdir : String
  execve_pathname : String
  execve_argv : List String
  execve_envp : List String
  stdin : Stdio
  stdout : Stdio
  stderr : Stdio

/-- Outcomes of the syscalls the child may perform between `clone3`
and `execve`, supplied by the environment. `execveErrno = none` means
`execve` succeeded (and never returns); `some e` means it failed with
errno `e`. -/
structure ChildEnv where
  setgroupsRes : Except Int Unit
  uidMapRes : Except Int Unit
  gidMapRes : Except Int Unit
  fchdirRes : Except Int Unit
  mountRes : Nat → Except Int Unit
  chrootRes : Except Int Unit
  chrootChdirRes : Except Int Unit
  dup2Stdin : Except Int Unit
  dup2Stdout : Except Int Unit
  dup2Stderr : Except Int Unit
  execveErrno : Option Int

/-- The fallible, context-labelled steps of `child_pre_execve`, in
source order (the infallible initial `drop(pipe_r)` is not a step). -/
inductive Step
  | setgroups
  | uidMap
  | gidMap
  | fchdirStep
  | mountStep (i : Nat)
  | chrootStep
  | chrootChdir
  | stdin
  | stdout
  | stderr
  | execve
deriving Repr, DecidableEq

/-- The static context label attached to each step by
`child_pre_execve`. -/
def Step.label : Step → String
  | .setgroups => "/proc/self/setgroups"
  | .uidMap => "/proc/self/uid_map"
  | .gidMap => "/proc/self/gid_map"
  | .fchdirStep => "fchdir"
  | .mountStep _ => "mount"
  | .chrootStep => "chroot"
  | .chrootChdir => "chroot_chdir"
  | .stdin => "stdin"
  | .stdout => "stdout"
  | .stderr => "stderr"
  | .execve => "execve"

/-- `Command::adjust_fd` (spawn.rs lines 206-225): `Inherit` and
`Close` never fail (the `close` result is discarded); `Dup2` fails
iff the `dup2` syscall fails. -/
def adjust_fd (stdio : Stdio) (dupRes : Except Int Unit) : Except Int Unit :=
  match stdio with
  | .inherit => .ok ()
  | .closeFd => .ok ()
  | .dup2 _ => dupRes

/-- The `for mount in &self.mounts` loop (spawn.rs lines 159-167),
with `i` the index of the first entry of `ms` in `cmd.mounts`:
performs each mount in order, aborting at the first failure with
context `"mount"`. Returns the result and the trace of attempted
entries. -/
def childMountLoop (mres : Nat → Except Int Unit) (i : Nat) :
    List Mount → Option Error × List Step
  | [] => (none, [])
  | _ :: ms =>
    match mres i with
    | .error e => (some ⟨.os e, "mount"⟩, [.mountStep i])
    | .ok _ =>
      let r := childMountLoop mres (i + 1) ms
      (r.1, .mountStep i :: r.2)

/-- `Command::child_pre_execve` (spawn.rs lines 141-186): the strictly
sequenced child-side steps. Returns `none` when `execve` succeeded
(the function never returns in that case) together with the trace of
attempted steps; returns `some err` when a step failed. -/
def childPreExecve (cmd : Command) (env : ChildEnv) : Option Error × List Step :=
  match env.setgroupsRes with
  | .error e => (some ⟨.os e, "/proc/self/setgroups"⟩, [.setgroups])
  | .ok _ =>
  match env.uidMapRes with
  | .error e => (some ⟨.os e, "/proc/self/uid_map"⟩, [.setgroups, .uidMap])
  | .ok _ =>
  match env.gidMapRes with
  | .error e =>
      (some ⟨.os e, "/proc/self/gid_map"⟩, [.setgroups, .uidMap, .gidMap])
  | .ok _ =>
  match env.fchdirRes with
  | .error e =>
      (some ⟨.os e, "fchdir"⟩, [.setgroups, .uidMap, .gidMap, .fchdirStep])
  | .ok _ =>
  match childMountLoop env.mountRes 0 cmd.mounts with
  | (some err, tr) =>
      (some err, [.setgroups, .uidMap, .gidMap, .fchdirStep] ++ tr)
  | (none, tr) =>
  match env.chrootRes with
  | .error e =>
      (some ⟨.os e, "chroot"⟩,
       [.setgroups, .uidMap, .gidMap, .fchdirStep] ++ tr ++ [.chrootStep])
  | .ok _ =>
  match env.chrootChdirRes with
  | .error e =>
      (some ⟨.os e, "chroot_chdir"⟩,
       [.setgroups, .uidMap, .gidMap, .fchdirStep] ++ tr ++
         [.chrootStep, .chrootChdir])
  | .ok _ =>
  match adjust_fd cmd.stdin env.dup2Stdin with
  | .error e =>
      (some ⟨.os e, "stdin"⟩,
       [.setgroups, .uidMap, .gidMap, .fchdirStep] ++ tr ++
         [.chrootStep, .chrootChdir, .stdin])
  | .ok _ =>
  match adjust_fd cmd.stdout env.dup2Stdout with
  | .error e =>
      (some ⟨.os e, "stdout"⟩,
       [.setgroups, .uidMap, .gidMap, .fchdirStep] ++ tr ++
         [.chrootStep, .chrootChdir, .stdin, .stdout])
  | .ok _ =>
  match adjust_fd cmd.stderr env.dup2Stderr with
  | .error e =>
      (some ⟨.os e, "stderr"⟩,
       [.setgroups, .uidMap, .gidMap, .fchdirStep] ++ tr ++
         [.chrootStep, .chrootChdir, .stdin, .stdout, .stderr])
  | .ok _ =>
  match env.execveErrno with
  | some e =>
      (some ⟨.os e, "execve"⟩,
       [.setgroups, .uidMap, .gidMap, .fchdirStep] ++ tr ++
         [.chrootStep, .chrootChdir, .stdin, .stdout, .stderr, .execve])
  | none =>
      (none,
       [.setgroups, .uidMap, .gidMap, .fchdirStep] ++ tr ++
         [.chrootStep, .chrootChdir, .stdin, .stdout, .stderr, .execve])

/-- The declared step order of `child_pre_execve`: the three
`/proc/self` writes, the chdir to the dereferenced scratch path, every
mount entry in list order, chroot, the post-chroot chdir, the three
stdio adjustments, and `execve`. -/
def stepOrder (cmd : Command) : List Step :=
  [.setgroups, .uidMap, .gidMap, .fchdirStep] ++
    (List.range cmd.mounts.length).map .mountStep ++
    [.chrootStep, .chrootChdir, .stdin, .stdout, .stderr, .execve]

/-- The outcome each individual step would have in environment `env`
(for `execve`, failing means returning). -/
def stepOutcome (cmd : Command) (env : ChildEnv) : Step → Except Int Unit
  | .setgroups => env.setgroupsRes
  | .uidMap => env.uidMapRes
  | .gidMap => env.gidMapRes
  | .fchdirStep => env.fchdirRes
  | .mountStep i => env.mountRes i
  | .chrootStep => env.chrootRes
  | .chrootChdir => env.chrootChdirRes
  | .stdin => adjust_fd cmd.stdin env.dup2Stdin
  | .stdout => adjust_fd cmd.stdout env.dup2Stdout
  | .stderr => adjust_fd cmd.stderr env.dup2Stderr
  | .execve =>
    match env.execveErrno with
    | some e => .error e
    | none => .ok ()

/-- Specification-side executor: attempt the given steps in order,
stop at the first failing one, and label the error with that step's
static label; no later step is attempted. -/
def firstFailRun (f : Step → Except Int Unit) :
    List Step → Option Error × List Step
  | [] => (none, [])
  | s :: ss =>
    match f s with
    | .error e => (some ⟨.os e, s.label⟩, [s])
    | .ok _ =>
      let r := firstFailRun f ss
      (r.1, s :: r.2)

/-! ## Run-action mount list (`src/snowflake/src/actions/run.rs`) -/

/-- `mount_bind_rdonly` (actions/run.rs lines 156-178): push a
writable recursive bind mount, then a read-only remount of the same
target. -/
def mount_bind_rdonly (mounts : List Mount) (source target : String) :
    List Mount :=
  let flags1 := MS_BIND ||| MS_REC
  let flags2 := flags1 ||| MS_RDONLY ||| MS_REMOUNT
  mounts ++
    [⟨source, target, "", flags1, ""⟩,
     ⟨"none", target, "", flags2, ""⟩]

/-- `collect_mounts` (actions/run.rs lines 120-150). -/
def collect_mounts : List Mount :=
  let mounts : List Mount := []
  let mounts := mounts ++
    [⟨"none", "/", "", MS_PRIVATE ||| MS_REC, ""⟩]
  let mounts := mounts ++
    [⟨"proc", "proc", "proc", MS_NODEV ||| MS_NOEXEC ||| MS_NOSUID, ""⟩]
  mount_bind_rdonly mounts "/nix/store" "nix/store"

/-! ## `Command::write_file` (spawn.rs lines 188-198) -/

/-- Outcomes of the syscalls `write_file` may perform. -/
structure WriteEnv where
  openRes : Except Int Unit
  writeRes : Except Int Nat
deriving Repr, DecidableEq

/-- File events performed by `write_file`; the recorded open flags are
the ones passed at the call site (`os::open` additionally ORs in
`O_CLOEXEC`). -/
inductive FsEv
  | openEv (flags : Nat)
  | writeEv
deriving Repr, DecidableEq

/-- `Command::write_file` (spawn.rs lines 188-198): open with
`O_TRUNC | O_WRONLY`, perform a single `write`, and map a short write
to `EAGAIN`. -/
def write_file (env : WriteEnv) (dataLen : Nat) :
    Except Int Unit × List FsEv :=
  match env.openRes with
  | .error e => (.error e, [.openEv (O_TRUNC ||| O_WRONLY)])
  | .ok _ =>
    match env.writeRes with
    | .error e => (.error e, [.openEv (O_TRUNC ||| O_WRONLY), .writeEv])
    | .ok n =>
      if n ≠ dataLen then
        (.error EAGAIN, [.openEv (O_TRUNC ||| O_WRONLY), .writeEv])
      else
        (.ok (), [.openEv (O_TRUNC ||| O_WRONLY), .writeEv])

/-- Number of `write` calls in a `write_file` trace. -/
def writeCalls (evs : List FsEv) : Nat :=
  evs.countP fun e => match e with | .writeEv => true | _ => false

/-! ## `CStringArray` (`src/snowflake-os/src/cstr.rs` lines 36-112) -/

/-- A C pointer slot in the backing array: either the null sentinel
or the (non-null) pointer obtained from `CString::into_raw` of a
pushed string. -/
inductive CPtr
  | null
  | str (s : String)
deriving Repr, DecidableEq

/-- `CStringArray`: null-terminated array of NUL-terminated strings,
modelled by its `elements` vector. -/
structure CStringArray where
  elements : List CPtr
deriving Repr, DecidableEq

/-- `Vec::insert(index, element)`. -/
def listInsertAt (l : List CPtr) (i : Nat) (a : CPtr) : List CPtr :=
  l.take i ++ a :: l.drop i

/-- `CStringArray::new` (cstr.rs lines 51-54): one null element. -/
def CStringArray.new : CStringArray := ⟨[.null]⟩

/-- `CStringArray::push` (cstr.rs lines 57-63): insert the new
element at index `len - 1`, i.e. immediately before the sentinel. -/
def CStringArray.push (arr : CStringArray) (element : String) : CStringArray :=
  ⟨listInsertAt arr.elements (arr.elements.length - 1) (.str element)⟩

/-- `CStringArray::from_iter` (cstr.rs lines 101-112): start from
`new` and push every element. -/
def CStringArray.fromIter (strs : List String) : CStringArray :=
  strs.foldl (fun a s => a.push s) CStringArray.new

/-! ## Configuration (`src/snowflake/src/config.rs`) and the
compatibility symlinks of `perform_run_action`
(`src/snowflake/src/actions/run.rs` lines 62-69) -/

/-- `BASH_PATH = env!("SNOWFLAKE_BASH_PATH")`: resolved from the
compile-time environment, modelled as a function from variable names
to values. -/
def BASH_PATH (buildEnv : String → String) : String :=
  buildEnv "SNOWFLAKE_BASH_PATH"

/-- `COREUTILS_PATH = env!("SNOWFLAKE_BASH_PATH")`: the source reads
the same environment variable as `BASH_PATH`. -/
def COREUTILS_PATH (buildEnv : String → String) : String :=
  buildEnv "SNOWFLAKE_BASH_PATH"

/-- Target of the `bin/sh` symlink created by `perform_run_action`:
`format!("{}/bin/bash", BASH_PATH)`. -/
def binShTarget (buildEnv : String → String) : String :=
  BASH_PATH buildEnv ++ "/bin/bash"

/-- Target of the `usr/bin/env` symlink created by
`perform_run_action`: `format!("{}/bin/env", COREUTILS_PATH)`. -/
def usrBinEnvTarget (buildEnv : String → String) : String :=
  COREUTILS_PATH buildEnv ++ "/bin/env"

/-! # Theorems -/

/-! ## i32 codec -/

theorem neI32_i32ToNeBytes (n : Int)
    (hlo : -2147483648 ≤ n) (hhi : n < 2147483648) :
    ∀ b0 b1 b2 b3, i32ToNeBytes n = [b0, b1, b2, b3] →
      neI32 b0 b1 b2 b3 = n := by
  intro b0 b1 b2 b3 h
  simp only [i32ToNeBytes, List.cons.injEq, and_true] at h
  obtain ⟨h0, h1, h2, h3⟩ := h
  by_cases hn : 0 ≤ n
  · have hu : (n % 4294967296).toNat = n.toNat := by omega
    have hnn : n.toNat < 2147483648 := by omega
    subst h0 h1 h2 h3
    simp only [neI32, hu]
    have : n.toNat % 256 + 256 * (n.toNat / 256 % 256) +
        65536 * (n.toNat / 65536 % 256) +
        16777216 * (n.toNat / 16777216 % 256) = n.toNat := by
      omega
    rw [this]
    split
    · omega
    · omega
  · have hu : (n % 4294967296).toNat = (n + 4294967296).toNat := by omega
    subst h0 h1 h2 h3
    simp only [neI32, hu]
    set m := (n + 4294967296).toNat with hm
    have hm1 : 2147483648 ≤ m := by omega
    have hm2 : m < 4294967296 := by omega
    have : m % 256 + 256 * (m / 256 % 256) +
        65536 * (m / 65536 % 256) +
        16777216 * (m / 16777216 % 256) = m := by
      omega
    rw [this]
    split
    · omega
    · omega

theorem i32ToNeBytes_length (n : Int) : (i32ToNeBytes n).length = 4 := rfl

/-! ## UTF-8 round trip -/

theorem utf8LossyDecode_ascii (b : Nat) (hb : b < 128) (t : List Nat) :
    utf8LossyDecode (b :: t) = b :: utf8LossyDecode t := by
  rcases t with _ | ⟨x, _ | ⟨y, _ | ⟨z, r⟩⟩⟩
  · rw [utf8LossyDecode.eq_2, if_pos hb]
  · rw [utf8LossyDecode.eq_3, if_pos hb]
  · rw [utf8LossyDecode.eq_4, if_pos hb]
  · rw [utf8LossyDecode.eq_5, if_pos hb]

theorem utf8LossyDecode_two (b0 b1 : Nat) (t : List Nat)
    (h0 : 194 ≤ b0 ∧ b0 ≤ 223) (h1 : 128 ≤ b1 ∧ b1 < 192) :
    utf8LossyDecode (b0 :: b1 :: t) =
      ((b0 - 192) * 64 + (b1 - 128)) :: utf8LossyDecode t := by
  have hn : ¬(b0 < 128) := by omega
  rcases t with _ | ⟨x, _ | ⟨y, r⟩⟩
  · rw [utf8LossyDecode.eq_3, if_neg hn, if_pos h0, if_pos h1]
  · rw [utf8LossyDecode.eq_4, if_neg hn, if_pos h0, if_pos h1]
  · rw [utf8LossyDecode.eq_5, if_neg hn, if_pos h0, if_pos h1]

theorem utf8LossyDecode_three (b0 b1 b2 : Nat) (t : List Nat)
    (h0 : 224 ≤ b0 ∧ b0 ≤ 239)
    (h1 : (b0 = 224 ∧ 160 ≤ b1 ∧ b1 < 192) ∨
          (225 ≤ b0 ∧ b0 ≤ 236 ∧ 128 ≤ b1 ∧ b1 < 192) ∨
          (b0 = 237 ∧ 128 ≤ b1 ∧ b1 < 160) ∨
          (238 ≤ b0 ∧ 128 ≤ b1 ∧ b1 < 192))
    (h2 : 128 ≤ b2 ∧ b2 < 192) :
    utf8LossyDecode (b0 :: b1 :: b2 :: t) =
      ((b0 - 224) * 4096 + (b1 - 128) * 64 + (b2 - 128)) ::
        utf8LossyDecode t := by
  have hn1 : ¬(b0 < 128) := by omega
  have hn2 : ¬(194 ≤ b0 ∧ b0 ≤ 223) := by omega
  rcases t with _ | ⟨x, r⟩
  · rw [utf8LossyDecode.eq_4, if_neg hn1, if_neg hn2, if_pos h0, if_pos h1,
      if_pos h2]
  · rw [utf8LossyDecode.eq_5, if_neg hn1, if_neg hn2, if_pos h0, if_pos h1,
      if_pos h2]

theorem utf8LossyDecode_four (b0 b1 b2 b3 : Nat) (t : List Nat)
    (h0 : 240 ≤ b0 ∧ b0 ≤ 244)
    (h1 : (b0 = 240 ∧ 144 ≤ b1 ∧ b1 < 192) ∨
          (241 ≤ b0 ∧ b0 ≤ 243 ∧ 128 ≤ b1 ∧ b1 < 192) ∨
          (b0 = 244 ∧ 128 ≤ b1 ∧ b1 < 144))
    (h2 : 128 ≤ b2 ∧ b2 < 192) (h3 : 128 ≤ b3 ∧ b3 < 192) :
    utf8LossyDecode (b0 :: b1 :: b2 :: b3 :: t) =
      ((b0 - 240) * 262144 + (b1 - 128) * 4096 +
        (b2 - 128) * 64 + (b3 - 128)) :: utf8LossyDecode t := by
  have hn1 : ¬(b0 < 128) := by omega
  have hn2 : ¬(194 ≤ b0 ∧ b0 ≤ 223) := by omega
  have hn3 : ¬(224 ≤ b0 ∧ b0 ≤ 239) := by omega
  rw [utf8LossyDecode.eq_5, if_neg hn1, if_neg hn2, if_neg hn3, if_pos h0,
    if_pos h1, if_pos h2, if_pos h3]

/-- Decoding an encoded scalar value recovers it, independently of the
trailing bytes. -/
theorem utf8LossyDecode_encodeChar (c : Nat) (h : ValidScalar c)
    (t : List Nat) :
    utf8LossyDecode (utf8EncodeChar c ++ t) = c :: utf8LossyDecode t := by
  unfold utf8EncodeChar
  by_cases h1 : c < 128
  · rw [if_pos h1]
    simpa using utf8LossyDecode_ascii c h1 t
  · rw [if_neg h1]
    by_cases h2 : c < 2048
    · rw [if_pos h2]
      have step := utf8LossyDecode_two (192 + c / 64) (128 + c % 64) t
        (by omega) (by omega)
      have hc : (192 + c / 64 - 192) * 64 + (128 + c % 64 - 128) = c := by
        omega
      rw [hc] at step
      simpa using step
    · rw [if_neg h2]
      by_cases h3 : c < 65536
      · rw [if_pos h3]
        have hval : ¬(55296 ≤ c ∧ c < 57344) := by
          rcases h with h | h <;> omega
        have step := utf8LossyDecode_three (224 + c / 4096) (128 + c / 64 % 64)
          (128 + c % 64) t (by omega) (by omega) (by omega)
        have hc : (224 + c / 4096 - 224) * 4096 +
            (128 + c / 64 % 64 - 128) * 64 + (128 + c % 64 - 128) = c := by
          omega
        rw [hc] at step
        simpa using step
      · rw [if_neg h3]
        have hcb : c < 1114112 := by rcases h with h | h <;> omega
        have step := utf8LossyDecode_four (240 + c / 262144)
          (128 + c / 4096 % 64) (128 + c / 64 % 64) (128 + c % 64) t
          (by omega) (by omega) (by omega) (by omega)
        have hc : (240 + c / 262144 - 240) * 262144 +
            (128 + c / 4096 % 64 - 128) * 4096 +
            (128 + c / 64 % 64 - 128) * 64 + (128 + c % 64 - 128) = c := by
          omega
        rw [hc] at step
        simpa using step

/-- Decoding an encoded sequence of scalar values recovers it. -/
theorem utf8LossyDecode_utf8Encode (cs : List Nat)
    (h : ∀ c ∈ cs, ValidScalar c) :
    utf8LossyDecode (utf8Encode cs) = cs := by
  induction cs with
  | nil => rfl
  | cons c cs ih =>
    have hc : ValidScalar c := h c (by simp)
    have hcs : ∀ x ∈ cs, ValidScalar x := fun x hx => h x (by simp [hx])
    show utf8LossyDecode (utf8EncodeChar c ++ utf8Encode cs) = c :: cs
    rw [utf8LossyDecode_encodeChar c hc, ih hcs]

theorem utf8EncodeChar_length_pos (c : Nat) :
    0 < (utf8EncodeChar c).length := by
  unfold utf8EncodeChar
  split
  · simp
  split
  · simp
  split
  · simp
  · simp

theorem utf8LossyString_utf8EncodeStr (s : String) :
    utf8LossyString (utf8EncodeStr s) = s := by
  unfold utf8LossyString utf8EncodeStr codesToStr strToCodes
  rw [utf8LossyDecode_utf8Encode]
  · cases s with
    | mk data =>
      simp only [List.map_map]
      have hid : Char.ofNat ∘ Char.toNat = id := funext fun c =>
        Char.ofNat_toNat c
      rw [hid, List.map_id]
  · intro c hc
    simp only [List.mem_map] at hc
    obtain ⟨ch, _, rfl⟩ := hc
    have := ch.valid
    unfold ValidScalar
    rcases this with h | h
    · left
      exact_mod_cast h
    · right
      exact ⟨by exact_mod_cast h.1, by exact_mod_cast h.2⟩

theorem utf8EncodeStr_length_pos (s : String) (h : s ≠ "") :
    0 < (utf8EncodeStr s).length := by
  unfold utf8EncodeStr utf8Encode strToCodes
  cases s with
  | mk data =>
    cases data with
    | nil => simp at h
    | cons c cs =>
      simp only [List.map_cons, List.foldr_cons, List.length_append]
      have := utf8EncodeChar_length_pos c.toNat
      omega

/-! ## Claim theorems -/

/-- C1: For every byte sequence the parent reads to EOF from the
pre-exec pipe during `Command::spawn`: 0 bytes neutralizes the
kill-guard and returns `Ok((pid, pidfd))`; at least 5 bytes returns an
error whose OS code is the native-endian i32 formed from the first 4
bytes and whose context is the UTF-8-lossy decoding of the remaining
bytes (guard fires); 1 to 4 bytes returns an error with message
"Unknown error" and context "child_pre_execve" (guard fires). -/
theorem spawn_pipe_interpretation (pid pidfd : Int) (buf : List Nat) :
    (buf = [] →
      spawnReadPipe pid pidfd buf =
        ⟨.ok (pid, pidfd), [.forgetGuard pid]⟩) ∧
    (5 ≤ buf.length →
      spawnReadPipe pid pidfd buf =
        ⟨.error ⟨.os (neI32 (buf.getD 0 0) (buf.getD 1 0) (buf.getD 2 0)
            (buf.getD 3 0)), utf8LossyString (buf.drop 4)⟩,
         [.kill pid SIGKILL, .waitpid pid]⟩) ∧
    (1 ≤ buf.length → buf.length ≤ 4 →
      spawnReadPipe pid pidfd buf =
        ⟨.error ⟨.other "Unknown error", "child_pre_execve"⟩,
         [.kill pid SIGKILL, .waitpid pid]⟩) := by
  rcases buf with _ | ⟨b0, _ | ⟨b1, _ | ⟨b2, _ | ⟨b3, _ | ⟨b4, rest⟩⟩⟩⟩⟩
  · exact ⟨fun _ => rfl, fun h => absurd h (by decide),
      fun h _ => absurd h (by decide)⟩
  · refine ⟨fun h => absurd h (List.cons_ne_nil _ _), fun h => ?_,
      fun _ _ => rfl⟩
    simp only [List.length_cons, List.length_nil] at h
    omega
  · refine ⟨fun h => absurd h (List.cons_ne_nil _ _), fun h => ?_,
      fun _ _ => rfl⟩
    simp only [List.length_cons, List.length_nil] at h
    omega
  · refine ⟨fun h => absurd h (List.cons_ne_nil _ _), fun h => ?_,
      fun _ _ => rfl⟩
    simp only [List.length_cons, List.length_nil] at h
    omega
  · refine ⟨fun h => absurd h (List.cons_ne_nil _ _), fun h => ?_,
      fun _ _ => rfl⟩
    simp only [List.length_cons, List.length_nil] at h
    omega
  · refine ⟨fun h => absurd h (List.cons_ne_nil _ _), fun _ => rfl, fun _ h2 => ?_⟩
    simp only [List.length_cons] at h2
    omega

/-- Witness for C1: a concrete 6-byte packet decodes to OS code 2 with
context "hi". -/
theorem spawn_pipe_interpretation_witness :
    spawnReadPipe 3 4 [2, 0, 0, 0, 104, 105] =
      ⟨.error ⟨.os 2, "hi"⟩, [.kill 3 SIGKILL, .waitpid 3]⟩ := by
  have h := (spawn_pipe_interpretation 3 4 [2, 0, 0, 0, 104, 105]).2.1
    (by decide)
  exact h.trans (by decide)

/-- C6: `collect_mounts` returns exactly four `Mount` entries: the
recursive private remount of `/`, the fresh procfs, and the two-step
read-only bind of the package store (bind then remount on the same
target). -/
theorem collect_mounts_spec :
    collect_mounts =
      [⟨"none", "/", "", MS_PRIVATE ||| MS_REC, ""⟩,
       ⟨"proc", "proc", "proc", MS_NODEV ||| MS_NOEXEC ||| MS_NOSUID, ""⟩,
       ⟨"/nix/store", "nix/store", "", MS_BIND ||| MS_REC, ""⟩,
       ⟨"none", "nix/store", "",
        MS_BIND ||| MS_REC ||| MS_RDONLY ||| MS_REMOUNT, ""⟩] ∧
    collect_mounts.length = 4 ∧
    ∃ m3 m4, collect_mounts.drop 2 = [m3, m4] ∧ m3.target = m4.target ∧
      m4.mountflags = m3.mountflags ||| MS_RDONLY ||| MS_REMOUNT := by
  refine ⟨by decide, by decide, ?_⟩
  refine ⟨_, _, rfl, by decide, by decide⟩

/-- C7: `write_file` opens with `O_WRONLY | O_TRUNC`; when the open
succeeds it performs exactly one `write` call, returns `Ok(())`
exactly when that single write transfers the whole buffer, and maps a
successful-but-short write to an `EAGAIN` error. -/
theorem write_file_spec (env : WriteEnv) (dataLen : Nat) :
    (write_file env dataLen).2.head? =
      some (.openEv (O_TRUNC ||| O_WRONLY)) ∧
    (env.openRes = .ok () →
      writeCalls (write_file env dataLen).2 = 1 ∧
      ((write_file env dataLen).1 = .ok () ↔ env.writeRes = .ok dataLen) ∧
      (∀ n, env.writeRes = .ok n → n < dataLen →
        (write_file env dataLen).1 = .error EAGAIN)) := by
  rcases env with ⟨o, w⟩
  rcases o with e | u
  · exact ⟨rfl, fun h => nomatch h⟩
  · rcases w with e | n
    · refine ⟨rfl, fun _ => ⟨rfl, ?_, ?_⟩⟩
      · constructor
        · intro h
          exact absurd h (by simp [write_file])
        · intro h
          exact nomatch h
      · intro n h _
        exact nomatch h
    · by_cases hn : n = dataLen
      · subst hn
        refine ⟨by simp [write_file], fun _ => ⟨by simp [write_file, writeCalls],
          ?_, ?_⟩⟩
        · simp [write_file]
        · intro m hm hlt
          simp only [Except.ok.injEq] at hm
          omega
      · refine ⟨by simp [write_file, hn], fun _ =>
          ⟨by simp [write_file, hn, writeCalls], ?_, ?_⟩⟩
        · simp [write_file, hn, EAGAIN]
        · intro m hm _
          simp only [Except.ok.injEq] at hm
          subst hm
          simp [write_file, hn]

/-- Witness for C7: a single write of 2 of 5 bytes yields `EAGAIN`. -/
theorem write_file_spec_witness :
    (write_file ⟨.ok (), .ok 2⟩ 5).1 = .error EAGAIN :=
  ((write_file_spec ⟨.ok (), .ok 2⟩ 5).2 rfl).2.2 2 rfl (by decide)

/-- C8: every `CStringArray` produced by `new`, `from_iter`, or a
sequence of `push` operations has a non-empty element array whose last
element is the null sentinel and whose preceding elements are the
pushed strings' (non-null) pointers in push order; `push` inserts
immediately before the sentinel, preserving the invariant. -/
theorem cstring_array_invariant :
    (∀ ss : List String,
      (CStringArray.fromIter ss).elements =
        ss.map CPtr.str ++ [CPtr.null]) ∧
    (∀ (arr : CStringArray) (pre : List String) (s : String),
      arr.elements = pre.map CPtr.str ++ [CPtr.null] →
      (arr.push s).elements = (pre ++ [s]).map CPtr.str ++ [CPtr.null]) := by
  have hpush : ∀ (arr : CStringArray) (pre : List String) (s : String),
      arr.elements = pre.map CPtr.str ++ [CPtr.null] →
      (arr.push s).elements = (pre ++ [s]).map CPtr.str ++ [CPtr.null] := by
    intro arr pre s h
    simp only [CStringArray.push, listInsertAt, h]
    have hlen : (pre.map CPtr.str ++ [CPtr.null]).length = pre.length + 1 := by
      simp
    rw [hlen]
    have hmaplen : (pre.map CPtr.str).length = pre.length := by simp
    simp only [Nat.add_sub_cancel]
    rw [List.take_append_of_le_length (by omega),
      List.drop_append_of_le_length (by omega)]
    rw [show pre.length = (pre.map CPtr.str).length from hmaplen.symm,
      List.take_length, List.drop_length]
    simp
  refine ⟨?_, hpush⟩
  have hfold : ∀ (ss : List String) (arr : CStringArray) (pre : List String),
      arr.elements = pre.map CPtr.str ++ [CPtr.null] →
      (ss.foldl (fun a s => a.push s) arr).elements =
        (pre ++ ss).map CPtr.str ++ [CPtr.null] := by
    intro ss
    induction ss with
    | nil =>
      intro arr pre h
      simpa using h
    | cons s ss ih =>
      intro arr pre h
      have := ih (arr.push s) (pre ++ [s]) (hpush arr pre s h)
      simpa using this
  intro ss
  exact hfold ss CStringArray.new [] rfl

/-- Witness for C8: pushing "b" onto an array holding "a" keeps the
sentinel last. -/
theorem cstring_array_invariant_witness :
    (CStringArray.push ⟨[.str "a", .null]⟩ "b").elements =
      (["a"] ++ ["b"]).map CPtr.str ++ [CPtr.null] :=
  cstring_array_invariant.2 ⟨[.str "a", .null]⟩ ["a"] "b" (by decide)

/-- C9: `BASH_PATH` and `COREUTILS_PATH` are resolved from the same
compile-time environment variable `SNOWFLAKE_BASH_PATH`, so they are
equal in every build, and both compatibility symlink targets of
`perform_run_action` point into that same store path. -/
theorem config_same_store_path (buildEnv : String → String) :
    BASH_PATH buildEnv = COREUTILS_PATH buildEnv ∧
    binShTarget buildEnv = BASH_PATH buildEnv ++ "/bin/bash" ∧
    usrBinEnvTarget buildEnv = BASH_PATH buildEnv ++ "/bin/env" :=
  ⟨rfl, rfl, rfl⟩

theorem pollTimeout_eq_min (t : Duration) :
    pollTimeout t = min ((t.asMillis : Int)) 2147483647 := by
  unfold pollTimeout
  split <;> omega

/-- C5: `Command::run` polls the pidfd with `POLLIN` and a millisecond
timeout equal to `as_millis` clamped to the signed-32-bit maximum;
zero polled events yields `Timeout(timeout)` with the exact timeout
argument; otherwise, with `waitpid` reporting status `st`, the result
is `Unsuccessful(st)` iff `st` is unsuccessful, and `Ok(())`
otherwise. -/
theorem run_poll_and_status (env : RunEnv) (t : Duration) (pid pidfd : Int)
    (hs : env.spawnRes = .ok (pid, pidfd)) :
    (runModel env t).2.head? = some (.poll pidfd POLLIN (pollTimeout t)) ∧
    pollTimeout t = min ((t.asMillis : Int)) 2147483647 ∧
    (env.pollRes = .ok 0 → (runModel env t).1 = .error (.timeout t)) ∧
    (∀ n st, env.pollRes = .ok (n + 1) → env.waitRes = .ok st →
      (((runModel env t).1 = .error (.unsuccessful st) ↔ st.success = false) ∧
       (st.success = true → (runModel env t).1 = .ok ()))) := by
  rcases env with ⟨sr, pr, wr⟩
  simp only at hs
  subst hs
  rcases pr with e | n
  · refine ⟨rfl, pollTimeout_eq_min t, fun hp => absurd hp (by simp),
      fun n st hp _ => absurd hp (by simp)⟩
  · rcases n with _ | m
    · refine ⟨rfl, pollTimeout_eq_min t, fun _ => rfl,
        fun n st hp _ => absurd (Except.ok.inj hp) (by omega)⟩
    · rcases wr with e | st
      · refine ⟨rfl, pollTimeout_eq_min t,
          fun hp => absurd (Except.ok.inj hp) (by omega),
          fun n st _ hw => absurd hw (by simp)⟩
      · refine ⟨?_, pollTimeout_eq_min t,
          fun hp => absurd (Except.ok.inj hp) (by omega), ?_⟩
        · by_cases hsucc : st.success <;> simp [runModel, hsucc]
        · intro n st' _ hw
          have hst : st = st' := Except.ok.inj hw
          subst hst
          by_cases hsucc : st.success <;> simp [runModel, hsucc]

/-- Witness for C5: a readable pidfd and a zero exit status yield
`Ok(())`. -/
theorem run_poll_and_status_witness :
    (runModel ⟨.ok (5, 7), .ok 1, .ok (.exited 0)⟩ ⟨2000000000⟩).1 =
      .ok () :=
  ((run_poll_and_status ⟨.ok (5, 7), .ok 1, .ok (.exited 0)⟩ ⟨2000000000⟩
    5 7 rfl).2.2.2 0 (.exited 0) rfl rfl).2 rfl

/-- C2 (amended): in every execution of `Command::run` in which spawn
succeeds, on the success path and on the `Unsuccessful` path the
kill-guard is neutralized exactly once and never fires (the child was
already reaped by `run`'s `waitpid`, before the status check); on
every path that returns a `Container` or `Timeout` error the guard
fires exactly once, performing one `kill(SIGKILL)` attempt followed by
one `waitpid` attempt on the child's pid at the end of the trace. -/
theorem run_kill_guard_law (env : RunEnv) (t : Duration) (pid pidfd : Int)
    (hs : env.spawnRes = .ok (pid, pidfd)) :
    (((runModel env t).1 = .ok () ∨
        (∃ st, (runModel env t).1 = .error (.unsuccessful st))) →
      guardForgets (runModel env t).2 = 1 ∧
      guardFires (runModel env t).2 = 0) ∧
    (((∃ e, (runModel env t).1 = .error (.container e)) ∨
        (∃ d, (runModel env t).1 = .error (.timeout d))) →
      guardForgets (runModel env t).2 = 0 ∧
      guardFires (runModel env t).2 = 1 ∧
      ∃ l, (runModel env t).2 =
        l ++ [.kill pid SIGKILL, .waitpid pid]) := by
  rcases env with ⟨sr, pr, wr⟩
  simp only at hs
  subst hs
  rcases pr with e | n
  · refine ⟨fun h => ?_, fun _ => ⟨rfl, rfl,
      ⟨[.poll pidfd POLLIN (pollTimeout t)], rfl⟩⟩⟩
    rcases h with h | ⟨st, h⟩ <;> exact absurd h (by simp [runModel])
  · rcases n with _ | m
    · refine ⟨fun h => ?_, fun _ => ⟨rfl, rfl,
        ⟨[.poll pidfd POLLIN (pollTimeout t)], rfl⟩⟩⟩
      rcases h with h | ⟨st, h⟩ <;> exact absurd h (by simp [runModel])
    · rcases wr with e | st
      · refine ⟨fun h => ?_, fun _ => ⟨rfl, rfl,
          ⟨[.poll pidfd POLLIN (pollTimeout t), .waitpid pid], rfl⟩⟩⟩
        rcases h with h | ⟨st, h⟩ <;> exact absurd h (by simp [runModel])
      · by_cases hsucc : st.success
        · refine ⟨fun _ => ?_, fun h => ?_⟩
          · simp [runModel, hsucc, guardForgets, guardFires]
          · rcases h with ⟨e, h⟩ | ⟨d, h⟩ <;>
              exact absurd h (by simp [runModel, hsucc])
        · refine ⟨fun _ => ?_, fun h => ?_⟩
          · simp [runModel, hsucc, guardForgets, guardFires]
          · rcases h with ⟨e, h⟩ | ⟨d, h⟩ <;>
              exact absurd h (by simp [runModel, hsucc])

/-- Witness for C2's amended theorem: a timed-out run fires the guard
exactly once. -/
theorem run_kill_guard_law_witness :
    guardForgets (runModel ⟨.ok (5, 7), .ok 0, .ok (.exited 0)⟩
      ⟨1000000⟩).2 = 0 ∧
    guardFires (runModel ⟨.ok (5, 7), .ok 0, .ok (.exited 0)⟩
      ⟨1000000⟩).2 = 1 ∧
    ∃ l, (runModel ⟨.ok (5, 7), .ok 0, .ok (.exited 0)⟩ ⟨1000000⟩).2 =
      l ++ [.kill 5 SIGKILL, .waitpid 5] :=
  (run_kill_guard_law ⟨.ok (5, 7), .ok 0, .ok (.exited 0)⟩ ⟨1000000⟩
    5 7 rfl).2 (Or.inr ⟨⟨1000000⟩, rfl⟩)

/-- Counterexample to C2 as stated: on the `Unsuccessful` path, `run`
returns an error yet the kill-guard does not fire — it was neutralized
right after `waitpid`, before the status check. -/
theorem run_kill_guard_counterexample :
    (runModel ⟨.ok (5, 7), .ok 1, .ok (.exited 2)⟩ ⟨1000000000⟩).1 =
      .error (.unsuccessful (.exited 2)) ∧
    guardFires (runModel ⟨.ok (5, 7), .ok 1, .ok (.exited 2)⟩
      ⟨1000000000⟩).2 = 0 ∧
    guardForgets (runModel ⟨.ok (5, 7), .ok 1, .ok (.exited 2)⟩
      ⟨1000000000⟩).2 = 1 := by
  decide

/-- C3 (amended): when the child reaches `execve` the parent reads an
empty pre-exec pipe and spawn returns `Ok((pid, pidfd))`; if the
parent's own `poll` and `waitpid` calls succeed, `Command::run`
returns `Ok(())`, `Err(Timeout(timeout))`, or
`Err(Unsuccessful(status))` — never a `Container` error. -/
theorem run_no_container_after_execve (env : RunEnv) (t : Duration)
    (pid pidfd : Int) (n : Nat) (st : ExitStatus)
    (hs : env.spawnRes = .ok (pid, pidfd))
    (hp : env.pollRes = .ok n) (hw : env.waitRes = .ok st) :
    (spawnReadPipe pid pidfd []).result = .ok (pid, pidfd) ∧
    ((runModel env t).1 = .ok () ∨
     (runModel env t).1 = .error (.timeout t) ∨
     (runModel env t).1 = .error (.unsuccessful st)) ∧
    (∀ e, (runModel env t).1 ≠ .error (.container e)) := by
  rcases env with ⟨sr, pr, wr⟩
  simp only at hs hp hw
  subst hs
  subst hp
  subst hw
  refine ⟨rfl, ?_, ?_⟩
  · rcases n with _ | m
    · exact Or.inr (Or.inl rfl)
    · by_cases hsucc : st.success
      · exact Or.inl (by simp [runModel, hsucc])
      · exact Or.inr (Or.inr (by simp [runModel, hsucc]))
  · intro e
    rcases n with _ | m
    · simp [runModel]
    · by_cases hsucc : st.success <;> simp [runModel, hsucc]

/-- Witness for C3's amended theorem at a concrete timed-out run. -/
theorem run_no_container_after_execve_witness :
    (runModel ⟨.ok (5, 7), .ok 0, .ok (.exited 0)⟩ ⟨1000000⟩).1 = .ok () ∨
    (runModel ⟨.ok (5, 7), .ok 0, .ok (.exited 0)⟩ ⟨1000000⟩).1 =
      .error (.timeout ⟨1000000⟩) ∨
    (runModel ⟨.ok (5, 7), .ok 0, .ok (.exited 0)⟩ ⟨1000000⟩).1 =
      .error (.unsuccessful (.exited 0)) :=
  (run_no_container_after_execve ⟨.ok (5, 7), .ok 0, .ok (.exited 0)⟩
    ⟨1000000⟩ 5 7 0 (.exited 0) rfl rfl rfl).2.1

/-- Counterexample to C3 as stated: the child reaches `execve` (empty
pipe, spawn returns Ok) but the program outlives the timeout, so `run`
returns `Timeout` — neither `Ok(())` nor `Unsuccessful`. -/
theorem run_no_container_counterexample :
    (spawnReadPipe 5 7 []).result = .ok (5, 7) ∧
    (runModel ⟨(spawnReadPipe 5 7 []).result, .ok 0, .ok (.exited 0)⟩
      ⟨1000000⟩).1 = .error (.timeout ⟨1000000⟩) ∧
    (runModel ⟨(spawnReadPipe 5 7 []).result, .ok 0, .ok (.exited 0)⟩
      ⟨1000000⟩).1 ≠ .ok () ∧
    (runModel ⟨(spawnReadPipe 5 7 []).result, .ok 0, .ok (.exited 0)⟩
      ⟨1000000⟩).1 ≠ .error (.unsuccessful (.exited 0)) := by
  decide

theorem firstFailRun_append_some (f : Step → Except Int Unit)
    (l1 l2 : List Step) (e : Error)
    (h : (firstFailRun f l1).1 = some e) :
    firstFailRun f (l1 ++ l2) = (some e, (firstFailRun f l1).2) := by
  induction l1 with
  | nil => simp [firstFailRun] at h
  | cons s ss ih =>
    cases hfs : f s with
    | error er =>
      simp only [firstFailRun, hfs] at h ⊢
      simp_all
    | ok u =>
      simp only [firstFailRun, hfs] at h ⊢
      simp [ih h]

theorem firstFailRun_append_none (f : Step → Except Int Unit)
    (l1 l2 : List Step)
    (h : (firstFailRun f l1).1 = none) :
    firstFailRun f (l1 ++ l2) =
      ((firstFailRun f l2).1,
       (firstFailRun f l1).2 ++ (firstFailRun f l2).2) := by
  induction l1 with
  | nil => simp [firstFailRun]
  | cons s ss ih =>
    cases hfs : f s with
    | error er =>
      simp only [firstFailRun, hfs] at h
      exact absurd h (by simp)
    | ok u =>
      simp only [firstFailRun, hfs] at h ⊢
      simp [ih h]

theorem childMountLoop_eq_firstFailRun (mres : Nat → Except Int Unit)
    (f : Step → Except Int Unit) (hf : ∀ j, f (.mountStep j) = mres j)
    (ms : List Mount) : ∀ i : Nat,
    childMountLoop mres i ms =
      firstFailRun f ((List.range' i ms.length).map Step.mountStep) := by
  induction ms with
  | nil => intro i; rfl
  | cons m ms ih =>
    intro i
    simp only [List.length_cons, List.range'_succ, List.map_cons]
    cases hm : mres i with
    | error e =>
      simp [childMountLoop, firstFailRun, hf, hm, Step.label]
    | ok u =>
      simp only [childMountLoop, firstFailRun, hf, hm]
      simp only [ih (i + 1)]

/-- C4: `child_pre_execve` performs its steps in strict order — the
three `/proc/self` writes, chdir to the dereferenced scratch path,
every entry of `mounts` in list order, chroot, the post-chroot chdir,
the stdio adjustments, `execve` — stopping at the first failing step
with that step's static label as context, attempting no later step:
the operational chain equals the first-failure executor over the
declared step order. (The initial close of the pipe read end is
infallible and precedes all of these.) -/
theorem child_pre_execve_order (cmd : Command) (env : ChildEnv) :
    childPreExecve cmd env =
      firstFailRun (stepOutcome cmd env) (stepOrder cmd) := by
  have hmount := childMountLoop_eq_firstFailRun env.mountRes
    (stepOutcome cmd env) (fun j => rfl) cmd.mounts 0
  unfold stepOrder
  rw [List.range_eq_range']
  simp only [List.cons_append, List.nil_append]
  rcases hsg : env.setgroupsRes with e | u
  · simp [childPreExecve, firstFailRun, stepOutcome, hsg, Step.label]
  rcases huid : env.uidMapRes with e | u
  · simp [childPreExecve, firstFailRun, stepOutcome, hsg, huid, Step.label]
  rcases hgid : env.gidMapRes with e | u
  · simp [childPreExecve, firstFailRun, stepOutcome, hsg, huid, hgid,
      Step.label]
  rcases hfch : env.fchdirRes with e | u
  · simp [childPreExecve, firstFailRun, stepOutcome, hsg, huid, hgid, hfch,
      Step.label]
  rcases hml : childMountLoop env.mountRes 0 cmd.mounts with ⟨r, tr⟩
  have hm1 : (firstFailRun (stepOutcome cmd env)
      ((List.range' 0 cmd.mounts.length).map Step.mountStep)) = (r, tr) := by
    rw [← hmount, hml]
  rcases r with _ | err
  · -- every mount succeeded; continue with the post-mount steps
    simp only [firstFailRun, stepOutcome, hsg, huid, hgid, hfch]
    rw [firstFailRun_append_none _ _ _ (by rw [hm1])]
    rw [hm1]
    rcases hcr : env.chrootRes with e | u
    · simp [childPreExecve, firstFailRun, stepOutcome, hsg, huid, hgid,
        hfch, hml, hcr, Step.label]
    rcases hcc : env.chrootChdirRes with e | u
    · simp [childPreExecve, firstFailRun, stepOutcome, hsg, huid, hgid,
        hfch, hml, hcr, hcc, Step.label]
    rcases hsi : adjust_fd cmd.stdin env.dup2Stdin with e | u
    · simp [childPreExecve, firstFailRun, stepOutcome, hsg, huid, hgid,
        hfch, hml, hcr, hcc, hsi, Step.label]
    rcases hso : adjust_fd cmd.stdout env.dup2Stdout with e | u
    · simp [childPreExecve, firstFailRun, stepOutcome, hsg, huid, hgid,
        hfch, hml, hcr, hcc, hsi, hso, Step.label]
    rcases hse : adjust_fd cmd.stderr env.dup2Stderr with e | u
    · simp [childPreExecve, firstFailRun, stepOutcome, hsg, huid, hgid,
        hfch, hml, hcr, hcc, hsi, hso, hse, Step.label]
    rcases hex : env.execveErrno with _ | e
    · simp [childPreExecve, firstFailRun, stepOutcome, hsg, huid, hgid,
        hfch, hml, hcr, hcc, hsi, hso, hse, hex, Step.label]
    · simp [childPreExecve, firstFailRun, stepOutcome, hsg, huid, hgid,
        hfch, hml, hcr, hcc, hsi, hso, hse, hex, Step.label]
  · -- a mount failed: the error aborts the child with context "mount"
    simp only [firstFailRun, stepOutcome, hsg, huid, hgid, hfch]
    rw [firstFailRun_append_some _ _ _ err (by rw [hm1])]
    rw [hm1]
    simp [childPreExecve, hsg, huid, hgid, hfch, hml]

/-- C10: encode-then-decode round trip over the pre-exec pipe. For a
child-side error with raw OS code `n` (a valid i32) and non-empty
valid-UTF-8 context `c`, if both child-side writes transfer all their
bytes the packet has `4 + |utf8(c)|` bytes (hence at least 5), and the
parent reconstructs exactly OS code `n` and context `c`; with no raw
OS code the encoded code is `-1`. -/
theorem error_packet_roundtrip (n : Int) (c : String)
    (hlo : -2147483648 ≤ n) (hhi : n < 2147483648) (hc : c ≠ "") :
    (childEncodePacket (some n) c).length =
      4 + (utf8EncodeStr c).length ∧
    5 ≤ (childEncodePacket (some n) c).length ∧
    (∀ pid pidfd : Int,
      spawnReadPipe pid pidfd (childEncodePacket (some n) c) =
        ⟨.error ⟨.os n, c⟩, [.kill pid SIGKILL, .waitpid pid]⟩) ∧
    (childEncodePacket none c).take 4 = i32ToNeBytes (-1) := by
  have hlen4 : (i32ToNeBytes n).length = 4 := rfl
  have henc : 0 < (utf8EncodeStr c).length := utf8EncodeStr_length_pos c hc
  refine ⟨?_, ?_, ?_, ?_⟩
  · simp [childEncodePacket, hlen4]
  · simp only [childEncodePacket, Option.getD, List.length_append, hlen4]
    omega
  · intro pid pidfd
    obtain ⟨a0, a1, a2, a3, ha⟩ :
        ∃ a0 a1 a2 a3, i32ToNeBytes n = [a0, a1, a2, a3] :=
      ⟨_, _, _, _, rfl⟩
    obtain ⟨e0, es, he⟩ : ∃ e0 es, utf8EncodeStr c = e0 :: es := by
      cases hE : utf8EncodeStr c with
      | nil => rw [hE] at henc; simp at henc
      | cons e0 es => exact ⟨e0, es, rfl⟩
    have hpacket : childEncodePacket (some n) c =
        a0 :: a1 :: a2 :: a3 :: e0 :: es := by
      simp [childEncodePacket, ha, he]
    have hcode : neI32 a0 a1 a2 a3 = n :=
      neI32_i32ToNeBytes n hlo hhi a0 a1 a2 a3 ha
    have hctx : utf8LossyString (e0 :: es) = c := by
      rw [← he]
      exact utf8LossyString_utf8EncodeStr c
    rw [hpacket]
    simp only [spawnReadPipe]
    rw [hcode, hctx]
  · rfl

/-- Witness for C10: errno 2 with context "execve" survives the round
trip. -/
theorem error_packet_roundtrip_witness :
    spawnReadPipe 3 4 (childEncodePacket (some 2) "execve") =
      ⟨.error ⟨.os 2, "execve"⟩, [.kill 3 SIGKILL, .waitpid 3]⟩ :=
  (error_packet_roundtrip 2 "execve" (by decide) (by decide)
    (by decide)).2.2.1 3 4

end Snowflake
